import Mathlib

/-!
Verification of the hasznaltauto.hu scraper core (scrape.py, scraper/*.py)
against its natural-language specification.

The Python source is shallowly embedded: pure helpers become Lean functions,
the network is abstracted as explicit outcome values or finite association
lists, and the crawl loops become fuel-based recursions whose termination is
proved via an explicit potential function.  Definitions come first, mirroring
the source files; the theorems about them follow at the end of the file.
-/

namespace Hasznaltauto

/-! ## String helpers (models of the Python string operations the source uses) -/

/-- Model of Python `str.lower` restricted to the ASCII case mapping, applied
character by character. -/
def lowerStr (s : String) : String := ⟨s.data.map Char.toLower⟩

/-- Model of Python's `needle in hay` substring test, on character lists:
`needle` occurs contiguously inside `hay`. -/
def containsSub (needle : List Char) : List Char → Bool
  | [] => needle.isEmpty
  | c :: rest => needle.isPrefixOf (c :: rest) || containsSub needle rest

/-- Model of Python's `needle in hay` on strings. -/
def strContains (hay needle : String) : Bool := containsSub needle.data hay.data

/-- Model of Python `s.rstrip("/")`. -/
def rstripSlash (s : String) : String :=
  ⟨(s.data.reverse.dropWhile (fun c => c = '/')).reverse⟩

/-- Model of Python `s.strip("/")`. -/
def stripSlash (s : String) : String :=
  ⟨((s.data.dropWhile (fun c => c = '/')).reverse.dropWhile (fun c => c = '/')).reverse⟩

/-- Value of a nonempty ASCII digit run, for the `int(...)` conversions. -/
def digitsToNat (ds : List Char) : Nat :=
  ds.foldl (fun n c => 10 * n + (c.toNat - '0'.toNat)) 0

/-- Association-list lookup, modelling both Python dict access on the
harvested key/value pairs (insertion order, first binding wins, as
`setdefault` guarantees) and the finite page/document graphs that abstract
the network in this embedding. -/
def lookupKV {α : Type} (key : String) : List (String × α) → Option α
  | [] => none
  | (k, v) :: rest => if k = key then some v else lookupKV key rest

/-! ## Rate-limited fetcher (scraper/http_client.py) -/

/-- `BLOCKED_PHRASES` (scraper/http_client.py lines 15-21). -/
def BLOCKED_PHRASES : List String :=
  ["ellenor", "nem vagy robot", "verification", "access denied", "too many requests"]

/-- `FetchResult` (scraper/http_client.py lines 24-31); `status` 0 stands for
the no-response cases exactly as in the source. -/
structure FetchResult where
  url : String
  status : Nat
  text : Option String
  blocked : Bool
  skipped : Bool
  content_type : String
deriving Repr, DecidableEq

/-- `HttpClient._is_blocked` (lines 72-77): the lowercased body contains one
of the fixed challenge phrases. -/
def is_blocked (text : String) : Bool :=
  BLOCKED_PHRASES.any (fun phrase => strContains (lowerStr text) phrase)

/-- Outcome of the underlying `requests.Session.get` call: a transport failure
(`requests.RequestException`) or a decoded response. -/
inductive NetOutcome where
  | exn : NetOutcome
  | resp (status : Nat) (text : String) (content_type : String) : NetOutcome
deriving Repr, DecidableEq

/-- `HttpClient.fetch` (scraper/http_client.py lines 79-112).  The robots
policy is abstracted as an optional allow-predicate (`None` when `set_robots`
was never called) and the network interaction as a `NetOutcome`; throttling
(`_throttle`) only affects timing, never the returned value, and is omitted. -/
def HttpClient.fetch (robots : Option (String → Bool)) (url : String)
    (ignore_robots : Bool) (net : NetOutcome) : FetchResult :=
  if (match robots with
      | some allowed => !ignore_robots && !(allowed url)
      | none => false) then
    { url := url, status := 0, text := none, blocked := false, skipped := true,
      content_type := "" }
  else
    match net with
    | .exn =>
      { url := url, status := 0, text := none, blocked := true, skipped := false,
        content_type := "" }
    | .resp status text ct =>
      if status == 403 || status == 429 || is_blocked text then
        { url := url, status := status, text := none, blocked := true,
          skipped := false, content_type := ct }
      else
        { url := url, status := status, text := some text, blocked := false,
          skipped := false, content_type := ct }

/-- Shape invariant of every `HttpClient.fetch` result: the body is absent
exactly on skipped or blocked results, and the two flags are never both set. -/
def FetchResult.wellFormed (r : FetchResult) : Prop :=
  (r.text = none ↔ (r.skipped = true ∨ r.blocked = true)) ∧
    ¬(r.skipped = true ∧ r.blocked = true)

/-! ## Robots policy gate (scraper/robots.py) -/

/-- `RobotsPolicy` state (scraper/robots.py): the parsed matcher is present
only after a successful load.  The stdlib `RobotFileParser` is abstracted: a
`parse` function turns the robots.txt body into a `can_fetch`-style matcher
`agent → url → Bool`. -/
structure RobotsPolicy where
  base_url : String
  user_agent : String
  parser : Option (String → String → Bool)
  loaded : Bool

/-- `RobotsPolicy.__init__` (scraper/robots.py lines 15-19). -/
def RobotsPolicy.init (base_url user_agent : String) : RobotsPolicy :=
  { base_url := base_url, user_agent := user_agent, parser := none, loaded := false }

/-- `RobotsPolicy.load` (lines 21-34): `fetchText` is the `text` of the
fetcher's result for robots.txt (fetched with `ignore_robots=True`); a missing
body leaves no parser but still marks the gate loaded. -/
def RobotsPolicy.load (p : RobotsPolicy) (parse : String → String → String → Bool)
    (fetchText : Option String) : RobotsPolicy :=
  match fetchText with
  | none => { p with loaded := true, parser := none }
  | some body => { p with loaded := true, parser := some (parse body) }

/-- `RobotsPolicy.allowed` (lines 36-39). -/
def RobotsPolicy.allowed (p : RobotsPolicy) (url : String) : Bool :=
  match p.loaded, p.parser with
  | false, _ => true
  | true, none => true
  | true, some canFetch => canFetch p.user_agent url

/-! ## Unified fetch orchestrator (scrape.py, fetch_html) -/

/-- Network-touching calls made by one `fetch_html` invocation, in order. -/
inductive FetchEvent where
  | httpFetch (url : String)
  | browserFetch (url : String)
deriving Repr, DecidableEq

/-- `fetch_html` (scrape.py lines 75-98).  `clientResult` is the value
`client.fetch(url)` would return (consumed only when the client is actually
called, which the event trace records); a configured browser is `some b` with
`b = browser.fetch(url).text`.  Returns the obtained body (or `none`) together
with the trace of network-touching calls. -/
def fetch_html (url : String) (robots : RobotsPolicy)
    (clientResult : FetchResult) (browser : Option (Option String))
    (use_playwright browser_only : Bool) : Option String × List FetchEvent :=
  if !(robots.allowed url) then
    (none, [])
  else if browser_only then
    match browser with
    | none => (none, [])
    | some b => (b, [.browserFetch url])
  else
    let result := clientResult
    if result.text.isNone && result.skipped then
      (none, [.httpFetch url])
    else
      match browser, result.text.isNone && use_playwright && !result.skipped with
      | some b, true => (b, [.httpFetch url, .browserFetch url])
      | _, _ => (result.text, [.httpFetch url])

/-! ## Detail-parsing helpers (scraper/parse.py) -/

/-- `CATEGORY_PATTERNS` (scraper/parse.py lines 19-28). -/
def CATEGORY_PATTERNS : List String :=
  ["szemelyauto", "teherauto", "motor", "lakoauto", "autobusz", "mikrobusz",
   "kamion", "potkocsi"]

/-- `ACCENT_MAP` (scraper/parse.py lines 46-67) as a character function. -/
def accentFold (c : Char) : Char :=
  if c = 'á' then 'a' else if c = 'Á' then 'A'
  else if c = 'é' then 'e' else if c = 'É' then 'E'
  else if c = 'í' then 'i' else if c = 'Í' then 'I'
  else if c = 'ó' then 'o' else if c = 'Ó' then 'O'
  else if c = 'ö' then 'o' else if c = 'Ö' then 'O'
  else if c = 'ő' then 'o' else if c = 'Ő' then 'O'
  else if c = 'ú' then 'u' else if c = 'Ú' then 'U'
  else if c = 'ü' then 'u' else if c = 'Ü' then 'U'
  else if c = 'ű' then 'u' else if c = 'Ű' then 'U'
  else c

/-- `strip_accents` (lines 70-71). -/
def strip_accents (s : String) : String := ⟨s.data.map accentFold⟩

/-- `parse_int` (lines 78-87): keep only the ASCII digits of the text,
`None` when there are none. -/
def parse_int (text : String) : Option Nat :=
  let digits := text.data.filter Char.isDigit
  if digits.isEmpty then none else some (digitsToNat digits)

/-- `parse_price_amount` (lines 90-91). -/
def parse_price_amount (text : String) : Option Nat := parse_int text

/-- Recursion core of `dedupe_urls`, carrying the `seen` set. -/
def dedupeGo (seen : List (String × Nat)) : List (String × Nat) → List (String × Nat)
  | [] => []
  | p :: rest =>
    if p ∈ seen then dedupeGo seen rest else p :: dedupeGo (p :: seen) rest

/-- `dedupe_urls` (scraper/parse.py lines 94-103): keep the first occurrence
of every `(url, ad_id)` pair, preserving order. -/
def dedupe_urls (items : List (String × Nat)) : List (String × Nat) :=
  dedupeGo [] items

/-- Characters matched by the class `[0-9\s\xa0\.]` of the price pattern
(scraper/parse.py lines 301 and 306); `\s` is the Python whitespace class. -/
def priceClassChar (c : Char) : Bool :=
  c.isDigit || c = ' ' || c = '\t' || c = '\n' || c = '\r' ||
    c = '\x0B' || c = '\x0C' || c = '\xA0' || c = '.'

/-- The currency alternation `(Ft|HUF|EUR|€)`: the token matching at the head
of `s`, if any (the alternatives start with distinct characters). -/
def currencyAt (s : List Char) : Option String :=
  if "Ft".data.isPrefixOf s then some "Ft"
  else if "HUF".data.isPrefixOf s then some "HUF"
  else if "EUR".data.isPrefixOf s then some "EUR"
  else if "€".data.isPrefixOf s then some "€"
  else none

/-- Model of `re.search(r"([0-9][0-9\s\xa0\.]*)\s*(Ft|HUF|EUR|€)", line)`:
the match starts at the leftmost digit whose maximal run of class characters
is immediately followed by a currency token.  The class contains every `\s`
character and no currency token starts with a class character, so the greedy
run needs no backtracking and the `\s*` between group 1 and the currency is
always empty.  Returns `(group 1, group 2)`. -/
def findPriceMatch : List Char → Option (List Char × String)
  | [] => none
  | c :: rest =>
    if c.isDigit then
      match currencyAt (rest.dropWhile priceClassChar) with
      | some cur => some (c :: rest.takeWhile priceClassChar, cur)
      | none => findPriceMatch rest
    else findPriceMatch rest

/-- `CURRENCY_MAP.get(sym, dflt)` (scraper/parse.py lines 12-17). -/
def currencyMapGet (sym : String) (dflt : Option String) : Option String :=
  if sym = "Ft" then some "HUF"
  else if sym = "HUF" then some "HUF"
  else if sym = "EUR" then some "EUR"
  else if sym = "€" then some "EUR"
  else dflt

/-- The three price-related locals of `parse_detail`. -/
structure PriceScanState where
  price : Option Nat
  price_discount : Option Nat
  currency : Option String
deriving Repr, DecidableEq

/-- One iteration of the visible-text price loop of `parse_detail`
(scraper/parse.py lines 298-309): an accent-folded `Akcio` line-marker routes
the matched amount into the discount field; the primary price takes the first
match of any line and is never overwritten. -/
def priceScanLine (st : PriceScanState) (line : String) : PriceScanState :=
  let line_ascii := strip_accents line
  let st1 :=
    if strContains line_ascii "Akcio" then
      match findPriceMatch line.data with
      | some (grp, cur) =>
        { st with price_discount := parse_price_amount ⟨grp⟩,
                  currency := currencyMapGet cur st.currency }
      | none => st
    else st
  if st1.price.isNone then
    match findPriceMatch line.data with
    | some (grp, cur) =>
      { st1 with price := parse_price_amount ⟨grp⟩,
                 currency := currencyMapGet cur st1.currency }
    | none => st1
  else st1

/-- The price-extraction scan of `parse_detail` (lines 296-309) over the
visible-text lines, entered when the page metadata provided no price (so
`price` starts at `None`); `currency0` is whatever the metadata set. -/
def detailPriceScan (lines : List String) (currency0 : Option String) : PriceScanState :=
  lines.foldl priceScanLine { price := none, price_discount := none, currency := currency0 }

/-- `parse_ad_id` (scrape.py lines 157-161), the model of
`re.search(r"-(\d+)$", url)`: a nonempty trailing digit run immediately
preceded by a hyphen. -/
def parse_ad_id (url : String) : Option Nat :=
  let rev := url.data.reverse
  let digits := (rev.takeWhile Char.isDigit).reverse
  if digits.isEmpty then none
  else
    match rev.dropWhile Char.isDigit with
    | '-' :: _ => some (digitsToNat digits)
    | _ => none

/-- The value of the first present embedded ad-code label, in the spelling
order `parse_detail` tries (scraper/parse.py line 273). -/
def embedded_ad_code (kv : List (String × String)) : Option String :=
  match lookupKV "Hirdeteskod" kv with
  | some v => some v
  | none =>
    match lookupKV "Hirdetes kod" kv with
    | some v => some v
    | none => lookupKV "HirdetesKod" kv

/-- The ad-identity resolution of `parse_detail` (scraper/parse.py lines
271-281): on the first present ad-code label, parse its value and stop trying
further spellings; whenever that produced no number (no label present, or a
value without digits), fall back to the URL's trailing numeric segment. -/
def resolve_ad_id (kv : List (String × String)) (url : String) : Option Nat :=
  let fromPage : Option (Option Nat) :=
    match lookupKV "Hirdeteskod" kv with
    | some v => some (parse_int v)
    | none =>
      match lookupKV "Hirdetes kod" kv with
      | some v => some (parse_int v)
      | none =>
        match lookupKV "HirdetesKod" kv with
        | some v => some (parse_int v)
        | none => none
  match fromPage with
  | some (some n) => some n
  | _ => parse_ad_id url

/-! ## Listing-page discovery (scrape.py, get_listing_page_urls) -/

/-- The parsed content of one listing page, abstracting the two HTML scans
applied to a fetched page: `listings` are the raw `(url, ad_id)` anchor
matches that `extract_listing_urls` collects before its final `dedupe_urls`
(scraper/parse.py lines 106-131), and `pagination` the candidate next-page
URLs from `extract_pagination_urls` (scrape.py lines 58-72). -/
structure ListingPage where
  listings : List (String × Nat)
  pagination : List String
deriving Repr, DecidableEq

/-- Result of one per-category BFS: collected `(url, ad_id)` pairs, the
visited pages in visit order (exactly the pages handed to `fetch_html`), and
whether the loop ran to completion within the given fuel. -/
structure CrawlResult where
  refs : List (String × Nat)
  visited : List String
  completed : Bool
deriving Repr, DecidableEq

/-- The per-category BFS loop of `get_listing_page_urls` (scrape.py lines
117-152), fuel-indexed.  The page graph is the finite association list `net`
(a URL outside it stands for a fetch that returned no body, line 131's
`continue`); `robots` is the gate's answer used to filter pagination links
(line 149).  One fuel unit is one loop iteration; `completed = false` only on
fuel exhaustion. -/
def crawlLoop (net : List (String × ListingPage)) (robots : String → Bool)
    (max_pages : Nat) :
    Nat → List String → List String → List (String × Nat) → CrawlResult
  | 0, queue, visited, refs =>
    { refs := refs, visited := visited,
      completed := queue.isEmpty || !(decide (visited.length < max_pages)) }
  | fuel + 1, queue, visited, refs =>
    match queue with
    | [] => { refs := refs, visited := visited, completed := true }
    | page_url :: rest =>
      if visited.length < max_pages then
        if page_url ∈ visited then
          crawlLoop net robots max_pages fuel rest visited refs
        else
          let visited' := visited ++ [page_url]
          match lookupKV page_url net with
          | none => crawlLoop net robots max_pages fuel rest visited' refs
          | some page =>
            let extracted := dedupe_urls page.listings
            let nexts := page.pagination.filter
              (fun nu => decide (nu ∉ visited') && robots nu)
            crawlLoop net robots max_pages fuel (rest ++ nexts) visited'
              (refs ++ extracted)
      else { refs := refs, visited := visited, completed := true }

/-- Pending-work bound shared by the two crawl loops: queue entries plus, for
every unvisited key of the finite association list, one dequeue and the
pushes its entry can cause. -/
def sumUnvisited {α : Type} (f : String × α → Nat) :
    List (String × α) → List String → Nat
  | [], _ => 0
  | p :: rest, visited =>
    (if p.1 ∈ visited then 0 else 1 + f p) + sumUnvisited f rest visited

/-- Fuel provably sufficient for `crawlLoop` to run to completion from an
empty visited set. -/
def crawlFuel (net : List (String × ListingPage)) (queue : List String) : Nat :=
  queue.length + sumUnvisited (fun p => p.2.pagination.length) net []

/-- Start URL of one category (scrape.py line 114). -/
def categoryStartUrl (base_url category : String) : String :=
  rstripSlash base_url ++ "/" ++ stripSlash category

/-- One category's bounded BFS, exactly as `get_listing_page_urls` seeds and
runs it (scrape.py lines 113-152). -/
def categoryCrawl (net : List (String × ListingPage)) (robots : String → Bool)
    (base_url category : String) (max_pages : Nat) : CrawlResult :=
  crawlLoop net robots max_pages
    (crawlFuel net [categoryStartUrl base_url category])
    [categoryStartUrl base_url category] [] []

/-- `get_listing_page_urls` (scrape.py lines 101-154): for every category in
order, run the bounded BFS from its start URL and concatenate the collected
`(url, ad_id)` pairs. -/
def get_listing_page_urls (net : List (String × ListingPage))
    (robots : String → Bool) (base_url : String) (categories : List String)
    (max_pages : Nat) : List (String × Nat) :=
  (categories.map (fun category =>
    (categoryCrawl net robots base_url category max_pages).refs)).flatten

/-! ## Sitemap discovery (scraper/sitemap.py) -/

/-- Parsed form of one sitemap document (`parse_sitemap`, scraper/sitemap.py
lines 30-39): an index holds only nested sitemap references, a leaf urlset
holds only page URLs. -/
inductive SitemapDoc where
  | index (locs : List String)
  | urlset (locs : List String)
deriving Repr, DecidableEq

/-- Outcome of fetching and examining one sitemap URL, abstracting
`client.fetch` (with its optional browser retry already folded in, lines
77-81 and 107-111) followed by `_looks_like_sitemap` and `parse_sitemap`:
no body obtained, a body that does not look like sitemap XML, an XML parse
failure, or a parsed document. -/
inductive SitemapFetch where
  | miss
  | notXml
  | badXml
  | doc (d : SitemapDoc)
deriving Repr, DecidableEq

/-- `parse_sitemap`'s `(page_urls, index_urls)` split (lines 34-39). -/
def SitemapDoc.split : SitemapDoc → List String × List String
  | .index locs => ([], locs)
  | .urlset locs => (locs, [])

/-- Number of pending-index entries a fetch outcome can push. -/
def SitemapFetch.pushLen : SitemapFetch → Nat
  | .doc (.index locs) => locs.length
  | _ => 0

/-- Scheme characters accepted by `urllib.parse.urlparse` after the first
alphabetic character. -/
def schemeChar (c : Char) : Bool :=
  c.isAlpha || c.isDigit || c = '+' || c = '-' || c = '.'

/-- Drop a valid `scheme:` prefix, as `urlparse` does. -/
def dropScheme (s : List Char) : List Char :=
  let pre := s.takeWhile (fun c => c ≠ ':')
  if pre.length < s.length then
    match pre with
    | [] => s
    | c :: rest => if c.isAlpha && rest.all schemeChar then s.drop (pre.length + 1) else s
  else s

/-- Drop a leading `//netloc` component (up to the next `/`, `?` or `#`), as
`urlparse` does. -/
def dropNetloc (s : List Char) : List Char :=
  match s with
  | '/' :: '/' :: rest =>
    rest.dropWhile (fun c => c ≠ '/' && c ≠ '?' && c ≠ '#')
  | _ => s

/-- Model of `urllib.parse.urlparse(url).path`: the URL with its fragment,
scheme, authority and query removed. -/
def urlparse_path (url : String) : String :=
  let s := url.data.takeWhile (fun c => c ≠ '#')
  let s := dropScheme s
  let s := dropNetloc s
  ⟨s.takeWhile (fun c => c ≠ '?')⟩

/-- `_is_listing_url` (scraper/sitemap.py lines 42-50): the URL path contains
`/{category}/` for one of the allowed categories — the configured ones, or
`CATEGORY_PATTERNS` when the configured list is empty, matching Python's
`categories or CATEGORY_PATTERNS`. -/
def is_listing_url (url : String) (categories : List String) : Bool :=
  let path := urlparse_path url
  if path = "" then false
  else
    let allowed := if categories.isEmpty then CATEGORY_PATTERNS else categories
    allowed.any (fun category => strContains path ("/" ++ category ++ "/"))

/-- The leaf-URL filtering loop (scraper/sitemap.py lines 129-133): append the
category-matching page URLs in order; the flag is `true` when the whole walk
must stop (`return urls`) because the retained count reached a nonzero
`max_urls` (Python's `if max_urls and len(urls) >= max_urls`). -/
def addPageUrls (categories : List String) (max_urls : Nat)
    (urls : List String) : List String → List String × Bool
  | [] => (urls, false)
  | u :: rest =>
    if is_listing_url u categories then
      let urls' := urls ++ [u]
      if max_urls ≠ 0 ∧ max_urls ≤ urls'.length then (urls', true)
      else addPageUrls categories max_urls urls' rest
    else addPageUrls categories max_urls urls rest

/-- Outcome of the sitemap walk: a normal return with the retained URLs in
discovery order, the AttributeError raised by `_looks_like_sitemap(None)`
when the walk re-reaches the top index URL while the held fetch result has
no body, or fuel exhaustion (a model artifact, proved unreachable for the
fuel the run supplies). -/
inductive SitemapOutcome where
  | done (urls : List String)
  | crash
  | fuelOut
deriving Repr, DecidableEq

/-- The sitemap walk loop (scraper/sitemap.py lines 100-135), fuel-indexed
over the finite document graph `net` (first binding wins; a URL outside it
stands for a fetch that obtained no body, line 113's `continue`).  `last`
models the `result` local still in scope from the most recent fetch (the top
index fetch initially): when the dequeued URL equals the top index URL the
code skips the refetch (line 106) and re-examines that held `result` — so a
held document is processed again under the top URL's name, and a held failed
fetch (`result.text is None`, modelled `.miss`) makes
`_looks_like_sitemap(None)` raise AttributeError (`.crash`).  One fuel unit
is one loop iteration. -/
def sitemapLoop (net : List (String × SitemapFetch)) (topUrl : String)
    (categories : List String) (max_urls : Nat) :
    Nat → List String → List String → List String → SitemapFetch →
      SitemapOutcome
  | 0, pending, _, urls, _ =>
    if pending.isEmpty then .done urls else .fuelOut
  | fuel + 1, pending, visited, urls, last =>
    match pending with
    | [] => .done urls
    | sitemap_url :: rest =>
      if sitemap_url ∈ visited then
        sitemapLoop net topUrl categories max_urls fuel rest visited urls last
      else
        let visited' := visited ++ [sitemap_url]
        let result :=
          if sitemap_url = topUrl then last
          else (lookupKV sitemap_url net).getD .miss
        if sitemap_url ≠ topUrl ∧ result = .miss then
          sitemapLoop net topUrl categories max_urls fuel rest visited' urls
            result
        else
          match result with
          | .miss => .crash
          | .notXml =>
            sitemapLoop net topUrl categories max_urls fuel rest visited' urls
              result
          | .badXml =>
            sitemapLoop net topUrl categories max_urls fuel rest visited' urls
              result
          | .doc d =>
            let pending' := rest ++ d.split.2
            match addPageUrls categories max_urls urls d.split.1 with
            | (urls', true) => .done urls'
            | (urls', false) =>
              sitemapLoop net topUrl categories max_urls fuel pending' visited'
                urls' result

/-- Sitemap index URL (scraper/sitemap.py line 76). -/
def sitemapIndexUrl (base_url : String) : String :=
  rstripSlash base_url ++ "/sitemap/sitemap_index.xml"

/-- Largest number of pending entries any one document of the graph can push,
used to budget the single possible reprocessing of a held document when the
top index URL is re-reached. -/
def maxPushLen (net : List (String × SitemapFetch)) : Nat :=
  (net.map (fun p => p.2.pushLen)).foldr Nat.max 0

/-- `fetch_sitemap_urls` (scraper/sitemap.py lines 67-135) as a run outcome.
The network is the finite association list `net`; the walk starts only when
the top index document fetches, validates and parses, and only that
document's `index_urls` seed the pending queue (line 97) — its `page_urls`
are discarded.  The loop receives the top document as the initially held
`result` and fuel provably sufficient to finish. -/
def sitemapRun (net : List (String × SitemapFetch)) (base_url : String)
    (categories : List String) (max_urls : Nat) : SitemapOutcome :=
  let topUrl := sitemapIndexUrl base_url
  match (lookupKV topUrl net).getD .miss with
  | .miss => .done []
  | .notXml => .done []
  | .badXml => .done []
  | .doc d =>
    sitemapLoop net topUrl categories max_urls
      (d.split.2.length + sumUnvisited (fun p => p.2.pushLen) net [] +
        (1 + Nat.max (SitemapFetch.pushLen (.doc d)) (maxPushLen net)))
      d.split.2 [] [] (.doc d)

/-- `fetch_sitemap_urls`'s value: `some urls` on a normal return, `none`
when the walk raises instead of returning. -/
def fetch_sitemap_urls (net : List (String × SitemapFetch)) (base_url : String)
    (categories : List String) (max_urls : Nat) : Option (List String) :=
  match sitemapRun net base_url categories max_urls with
  | .done urls => some urls
  | _ => none

/-! ## Record store and resume (scraper/db.py, scrape.py main loop) -/

/-- One stored row of the `listings` table (scraper/db.py lines 16-48): the
`ad_id` key plus the 25 non-key columns, their values abstracted to a type
`V` (SQLite stores them dynamically typed). -/
structure ListingRow (V : Type) where
  ad_id : Nat
  url : V
  title : V
  price_huf : V
  price_discount_huf : V
  currency : V
  year : V
  year_month : V
  mileage_km : V
  fuel : V
  engine_cc : V
  power_kw : V
  power_hp : V
  transmission : V
  drivetrain : V
  body_type : V
  color : V
  seller_name : V
  seller_type : V
  location : V
  description : V
  equipment_json : V
  images_json : V
  attributes_json : V
  raw_html : V
  scraped_at : V

/-- The `ON CONFLICT(ad_id) DO UPDATE SET` clause of `upsert_listing`
(scraper/db.py lines 111-136): every non-key column is assigned from the
excluded (new) row, column by column; the key keeps the stored value. -/
def conflictUpdate {V : Type} (old excluded : ListingRow V) : ListingRow V :=
  { ad_id := old.ad_id
    url := excluded.url
    title := excluded.title
    price_huf := excluded.price_huf
    price_discount_huf := excluded.price_discount_huf
    currency := excluded.currency
    year := excluded.year
    year_month := excluded.year_month
    mileage_km := excluded.mileage_km
    fuel := excluded.fuel
    engine_cc := excluded.engine_cc
    power_kw := excluded.power_kw
    power_hp := excluded.power_hp
    transmission := excluded.transmission
    drivetrain := excluded.drivetrain
    body_type := excluded.body_type
    color := excluded.color
    seller_name := excluded.seller_name
    seller_type := excluded.seller_type
    location := excluded.location
    description := excluded.description
    equipment_json := excluded.equipment_json
    images_json := excluded.images_json
    attributes_json := excluded.attributes_json
    raw_html := excluded.raw_html
    scraped_at := excluded.scraped_at }

/-- `upsert_listing`'s effect on the stored rows (INSERT ... ON CONFLICT
DO UPDATE keyed by `ad_id`): rewrite the conflicting row through the update
clause, or append the new row. -/
def upsert_row {V : Type} (store : List (ListingRow V)) (row : ListingRow V) :
    List (ListingRow V) :=
  if store.any (fun r => r.ad_id == row.ad_id) then
    store.map (fun r => if r.ad_id == row.ad_id then conflictUpdate r row else r)
  else store ++ [row]

/-- One resume decision of the driver loop (scrape.py lines 254-257): `true`
when the listing URL goes on to be fetched, `false` when the resume guard
skips it.  Python truthiness makes both a missing and a zero URL-derived
ad id fail the `ad_id and listing_exists(...)` test. -/
def driver_fetches (resume : Bool) (store : List Nat) (url : String) : Bool :=
  match parse_ad_id url with
  | some ad_id => !(resume && ad_id != 0 && store.contains ad_id)
  | none => true

/-- Concrete two-page category graph: both pages advertise the same listing,
and the first one links to the second through a pagination anchor. -/
def twoPageNet : List (String × ListingPage) :=
  [("https://www.hasznaltauto.hu/szemelyauto",
    { listings := [("https://www.hasznaltauto.hu/szemelyauto/opel-1", 1)],
      pagination := ["https://www.hasznaltauto.hu/szemelyauto/page2"] }),
   ("https://www.hasznaltauto.hu/szemelyauto/page2",
    { listings := [("https://www.hasznaltauto.hu/szemelyauto/opel-1", 1)],
      pagination := [] })]

/-- Concrete two-level sitemap tree realising the specification's example: an
index pointing at two leaf documents that together hold five category-matching
and three non-matching URLs. -/
def twoLevelSitemapNet : List (String × SitemapFetch) :=
  [("https://www.hasznaltauto.hu/sitemap/sitemap_index.xml",
    .doc (.index ["https://www.hasznaltauto.hu/sitemap/a.xml",
                  "https://www.hasznaltauto.hu/sitemap/b.xml"])),
   ("https://www.hasznaltauto.hu/sitemap/a.xml",
    .doc (.urlset ["https://www.hasznaltauto.hu/szemelyauto/auto-101",
                   "https://www.hasznaltauto.hu/egyeb/thing-1",
                   "https://www.hasznaltauto.hu/szemelyauto/auto-102",
                   "https://www.hasznaltauto.hu/szemelyauto/auto-103"])),
   ("https://www.hasznaltauto.hu/sitemap/b.xml",
    .doc (.urlset ["https://www.hasznaltauto.hu/szemelyauto/auto-104",
                   "https://www.hasznaltauto.hu/egyeb/thing-2",
                   "https://www.hasznaltauto.hu/szemelyauto/auto-105",
                   "https://www.hasznaltauto.hu/egyeb/thing-3"]))]

/-- Concrete self-referential sitemap tree whose first nested reference is a
dead document: dequeuing the top index URL after the failed fetch re-examines
the held body-less `result`. -/
def selfRefCrashNet : List (String × SitemapFetch) :=
  [("https://www.hasznaltauto.hu/sitemap/sitemap_index.xml",
    .doc (.index ["https://www.hasznaltauto.hu/sitemap/broken.xml",
                  "https://www.hasznaltauto.hu/sitemap/sitemap_index.xml"]))]

/-- Concrete self-referential sitemap tree whose top index lists a leaf
document and then itself: dequeuing the top index URL re-examines the held
leaf document, duplicating its URL. -/
def staleReuseNet : List (String × SitemapFetch) :=
  [("https://www.hasznaltauto.hu/sitemap/sitemap_index.xml",
    .doc (.index ["https://www.hasznaltauto.hu/sitemap/a.xml",
                  "https://www.hasznaltauto.hu/sitemap/sitemap_index.xml"])),
   ("https://www.hasznaltauto.hu/sitemap/a.xml",
    .doc (.urlset ["https://www.hasznaltauto.hu/szemelyauto/auto-1"]))]

/-- Row whose every non-key column holds the same value. -/
def constRow (id : Nat) (v : Option String) : ListingRow (Option String) :=
  { ad_id := id, url := v, title := v, price_huf := v, price_discount_huf := v,
    currency := v, year := v, year_month := v, mileage_km := v, fuel := v,
    engine_cc := v, power_kw := v, power_hp := v, transmission := v,
    drivetrain := v, body_type := v, color := v, seller_name := v,
    seller_type := v, location := v, description := v, equipment_json := v,
    images_json := v, attributes_json := v, raw_html := v, scraped_at := v }

/-!
## Theorems

Shared structural lemmas first, then one theorem per specification claim
(with its witness or counterexample where required).
-/

theorem dedupeGo_mem (items : List (String × Nat)) :
    ∀ (seen : List (String × Nat)) (p : String × Nat),
      p ∈ dedupeGo seen items ↔ p ∈ items ∧ p ∉ seen := by
  induction items with
  | nil => intro seen p; simp [dedupeGo]
  | cons q rest ih =>
    intro seen p
    by_cases hq : q ∈ seen
    · rw [show dedupeGo seen (q :: rest) = dedupeGo seen rest from by
        simp [dedupeGo, hq]]
      rw [ih seen p]
      constructor
      · rintro ⟨h1, h2⟩; exact ⟨List.mem_cons_of_mem q h1, h2⟩
      · rintro ⟨h1, h2⟩
        rcases List.mem_cons.mp h1 with h1 | h1
        · exact absurd (h1 ▸ hq) h2
        · exact ⟨h1, h2⟩
    · rw [show dedupeGo seen (q :: rest) = q :: dedupeGo (q :: seen) rest from by
        simp [dedupeGo, hq]]
      constructor
      · intro h
        rcases List.mem_cons.mp h with h | h
        · exact ⟨h ▸ List.mem_cons_self q rest, h ▸ hq⟩
        · obtain ⟨h1, h2⟩ := (ih (q :: seen) p).mp h
          exact ⟨List.mem_cons_of_mem q h1, fun hs => h2 (List.mem_cons_of_mem q hs)⟩
      · rintro ⟨h1, h2⟩
        rcases List.mem_cons.mp h1 with h1 | h1
        · exact h1 ▸ List.mem_cons_self q _
        · by_cases hpq : p = q
          · exact hpq ▸ List.mem_cons_self q _
          · exact List.mem_cons_of_mem q
              ((ih (q :: seen) p).mpr ⟨h1, by simp [hpq, h2]⟩)

theorem dedupeGo_nodup (items : List (String × Nat)) :
    ∀ (seen : List (String × Nat)), (dedupeGo seen items).Nodup := by
  induction items with
  | nil => intro seen; simp [dedupeGo]
  | cons q rest ih =>
    intro seen
    by_cases hq : q ∈ seen
    · simpa [dedupeGo, hq] using ih seen
    · rw [show dedupeGo seen (q :: rest) = q :: dedupeGo (q :: seen) rest from by
        simp [dedupeGo, hq]]
      refine List.Nodup.cons ?_ (ih (q :: seen))
      intro hmem
      exact ((dedupeGo_mem rest (q :: seen) q).mp hmem).2 (List.mem_cons_self q seen)

/-- C4 (amended): the pairs extracted from one listing page are de-duplicated
by `(url, ad_id)` — `dedupe_urls` yields a duplicate-free list preserving
exactly the incoming pairs — but the concatenated result of
`get_listing_page_urls` may repeat a pair discovered on different pages. -/
theorem dedupe_urls_nodup (items : List (String × Nat)) (p : String × Nat) :
    (dedupe_urls items).Nodup ∧ (p ∈ dedupe_urls items ↔ p ∈ items) := by
  constructor
  · exact dedupeGo_nodup items []
  · simpa using dedupeGo_mem items [] p

theorem sumUnvisited_append_le {α : Type} (f : String × α → Nat)
    (net : List (String × α)) (visited : List String) (u : String) :
    sumUnvisited f net (visited ++ [u]) ≤ sumUnvisited f net visited := by
  induction net with
  | nil => exact le_refl _
  | cons p rest ih =>
    unfold sumUnvisited
    by_cases h1 : p.1 ∈ visited ++ [u]
    · rw [if_pos h1]
      by_cases h2 : p.1 ∈ visited
      · rw [if_pos h2]; omega
      · rw [if_neg h2]; omega
    · have h2 : p.1 ∉ visited := fun hm => h1 (List.mem_append_left _ hm)
      rw [if_neg h1, if_neg h2]
      omega

theorem sumUnvisited_visit {α : Type} (f : String × α → Nat)
    (net : List (String × α)) (visited : List String) (u : String) (a : α)
    (hl : lookupKV u net = some a) (hu : u ∉ visited) :
    sumUnvisited f net (visited ++ [u]) + (1 + f (u, a)) ≤
      sumUnvisited f net visited := by
  induction net with
  | nil => cases hl
  | cons p rest ih =>
    obtain ⟨k, v⟩ := p
    unfold lookupKV at hl
    unfold sumUnvisited
    by_cases hk : k = u
    · rw [if_pos hk] at hl
      injection hl with hv
      have h1 : k ∈ visited ++ [u] :=
        List.mem_append_right _ (List.mem_singleton.mpr hk)
      have h2 : k ∉ visited := fun hm => hu (hk ▸ hm)
      rw [if_pos h1, if_neg h2]
      have hle := sumUnvisited_append_le f rest visited u
      subst hk
      subst hv
      omega
    · rw [if_neg hk] at hl
      have hrec := ih hl
      by_cases h2 : k ∈ visited
      · have h1 : k ∈ visited ++ [u] := List.mem_append_left _ h2
        rw [if_pos h1, if_pos h2]
        omega
      · have h1 : k ∉ visited ++ [u] := by
          intro hm
          rcases List.mem_append.mp hm with hm | hm
          · exact h2 hm
          · exact hk (List.mem_singleton.mp hm)
        rw [if_neg h1, if_neg h2]
        omega

theorem crawlLoop_completes (net : List (String × ListingPage))
    (robots : String → Bool) (max_pages : Nat) :
    ∀ (fuel : Nat) (queue visited : List String) (refs : List (String × Nat)),
      queue.length + sumUnvisited (fun p => p.2.pagination.length) net visited ≤ fuel →
      (crawlLoop net robots max_pages fuel queue visited refs).completed = true := by
  intro fuel
  induction fuel with
  | zero =>
    intro queue visited refs h
    cases queue with
    | nil => simp [crawlLoop]
    | cons q rest => exfalso; simp only [List.length_cons] at h; omega
  | succ fuel ih =>
    intro queue visited refs h
    cases queue with
    | nil => simp [crawlLoop]
    | cons page_url rest =>
      simp only [List.length_cons] at h
      unfold crawlLoop
      dsimp only
      by_cases hmax : visited.length < max_pages
      · rw [if_pos hmax]
        by_cases hv : page_url ∈ visited
        · rw [if_pos hv]
          exact ih rest visited refs (by omega)
        · rw [if_neg hv]
          cases hl : lookupKV page_url net with
          | none =>
            have hle := sumUnvisited_append_le
              (fun p => p.2.pagination.length) net visited page_url
            exact ih rest (visited ++ [page_url]) refs (by omega)
          | some page =>
            dsimp only
            have hvis := sumUnvisited_visit
              (fun p => p.2.pagination.length) net visited page_url page hl hv
            have hfilt := List.length_filter_le
              (fun nu => decide (nu ∉ visited ++ [page_url]) && robots nu)
              page.pagination
            refine ih _ _ _ ?_
            rw [List.length_append]
            dsimp only at hvis
            omega
      · rw [if_neg hmax]

theorem crawlLoop_visited_nodup (net : List (String × ListingPage))
    (robots : String → Bool) (max_pages : Nat) :
    ∀ (fuel : Nat) (queue visited : List String) (refs : List (String × Nat)),
      visited.Nodup →
      (crawlLoop net robots max_pages fuel queue visited refs).visited.Nodup := by
  intro fuel
  induction fuel with
  | zero => intro queue visited refs h; exact h
  | succ fuel ih =>
    intro queue visited refs h
    cases queue with
    | nil => exact h
    | cons page_url rest =>
      unfold crawlLoop
      dsimp only
      by_cases hmax : visited.length < max_pages
      · rw [if_pos hmax]
        by_cases hv : page_url ∈ visited
        · rw [if_pos hv]; exact ih rest visited refs h
        · rw [if_neg hv]
          have hnd : (visited ++ [page_url]).Nodup := by
            refine List.Nodup.append h (List.nodup_singleton page_url) ?_
            intro a ha hb
            rw [List.mem_singleton] at hb
            exact hv (hb ▸ ha)
          cases lookupKV page_url net with
          | none => exact ih rest (visited ++ [page_url]) refs hnd
          | some page => exact ih _ _ _ hnd
      · rw [if_neg hmax]; exact h

theorem crawlLoop_visited_le (net : List (String × ListingPage))
    (robots : String → Bool) (max_pages : Nat) :
    ∀ (fuel : Nat) (queue visited : List String) (refs : List (String × Nat)),
      visited.length ≤ max_pages →
      (crawlLoop net robots max_pages fuel queue visited refs).visited.length
        ≤ max_pages := by
  intro fuel
  induction fuel with
  | zero => intro queue visited refs h; exact h
  | succ fuel ih =>
    intro queue visited refs h
    cases queue with
    | nil => exact h
    | cons page_url rest =>
      unfold crawlLoop
      dsimp only
      by_cases hmax : visited.length < max_pages
      · rw [if_pos hmax]
        by_cases hv : page_url ∈ visited
        · rw [if_pos hv]; exact ih rest visited refs h
        · rw [if_neg hv]
          have hlen : (visited ++ [page_url]).length ≤ max_pages := by
            rw [List.length_append]; simp only [List.length_singleton]; omega
          cases lookupKV page_url net with
          | none => exact ih rest (visited ++ [page_url]) refs hlen
          | some page => exact ih _ _ _ hlen
      · rw [if_neg hmax]; exact h

/-- C5: each category's BFS terminates on every (finite) page graph, cycles
included — the fuel `crawlFuel` provably suffices, so the loop reports
completion — while the visit trace (exactly the URLs handed to `fetch_html`,
each dequeued only while strictly fewer than `max_pages` pages are visited)
is duplicate-free and never longer than `max_pages`. -/
theorem categoryCrawl_bounded (net : List (String × ListingPage))
    (robots : String → Bool) (base_url category : String) (max_pages : Nat) :
    (categoryCrawl net robots base_url category max_pages).completed = true ∧
    (categoryCrawl net robots base_url category max_pages).visited.Nodup ∧
    (categoryCrawl net robots base_url category max_pages).visited.length
      ≤ max_pages := by
  refine ⟨?_, ?_, ?_⟩
  · exact crawlLoop_completes net robots max_pages _ _ [] [] (le_of_eq rfl)
  · exact crawlLoop_visited_nodup net robots max_pages _ _ [] [] List.nodup_nil
  · exact crawlLoop_visited_le net robots max_pages _ _ [] [] (Nat.zero_le _)

/-- C4 (counterexample): two distinct listing pages advertising the same
`(url, ad_id)` pair make `get_listing_page_urls` return that pair twice —
de-duplication happens only within a single page, not across the run. -/
theorem get_listing_page_urls_duplicate :
    get_listing_page_urls twoPageNet (fun _ => true)
        "https://www.hasznaltauto.hu" ["szemelyauto"] 2
      = [("https://www.hasznaltauto.hu/szemelyauto/opel-1", 1),
         ("https://www.hasznaltauto.hu/szemelyauto/opel-1", 1)] ∧
    ¬ (get_listing_page_urls twoPageNet (fun _ => true)
        "https://www.hasznaltauto.hu" ["szemelyauto"] 2).Nodup := by
  refine ⟨by decide, by decide⟩

theorem HttpClient.fetch_wellFormed (robots : Option (String → Bool))
    (url : String) (ig : Bool) (net : NetOutcome) :
    (HttpClient.fetch robots url ig net).wellFormed := by
  unfold HttpClient.fetch FetchResult.wellFormed
  split
  · simp
  · cases net with
    | exn => simp
    | resp status text ct => dsimp only; split <;> simp

/-- C1: `fetch_html` follows exactly the specified order: robots denial gives
`null` with no network call; browser-only mode uses only the browser (null
without one, no plain fetch); otherwise the rate-limited client runs first,
a robots-skipped result returns `null` with no browser fallback, a blocked
result retries exactly once via the browser when that fallback is enabled and
available, and otherwise the client's body (or `null`) is returned. -/
theorem fetch_html_orchestration (url : String) (robots : RobotsPolicy)
    (r : FetchResult) (browser : Option (Option String)) (upw bonly : Bool)
    (hr : r.wellFormed) :
    (robots.allowed url = false →
        fetch_html url robots r browser upw bonly = (none, [])) ∧
    (robots.allowed url = true → bonly = true → browser = none →
        fetch_html url robots r browser upw bonly = (none, [])) ∧
    (∀ b, robots.allowed url = true → bonly = true → browser = some b →
        fetch_html url robots r browser upw bonly = (b, [.browserFetch url])) ∧
    (robots.allowed url = true → bonly = false → r.skipped = true →
        fetch_html url robots r browser upw bonly = (none, [.httpFetch url])) ∧
    (∀ b, robots.allowed url = true → bonly = false → r.blocked = true →
        upw = true → browser = some b →
        fetch_html url robots r browser upw bonly
          = (b, [.httpFetch url, .browserFetch url])) ∧
    (robots.allowed url = true → bonly = false → r.blocked = true →
        upw = false ∨ browser = none →
        fetch_html url robots r browser upw bonly = (none, [.httpFetch url])) ∧
    (robots.allowed url = true → bonly = false → r.blocked = false →
        r.skipped = false →
        fetch_html url robots r browser upw bonly = (r.text, [.httpFetch url])) := by
  obtain ⟨hiff, hnand⟩ := hr
  refine ⟨?_, ?_, ?_, ?_, ?_, ?_, ?_⟩
  · intro ha; simp [fetch_html, ha]
  · intro ha hb hn; simp [fetch_html, ha, hb, hn]
  · intro b ha hb hn; simp [fetch_html, ha, hb, hn]
  · intro ha hb hs
    have ht : r.text = none := hiff.mpr (Or.inl hs)
    simp [fetch_html, ha, hb, hs, ht]
  · intro b ha hb hbl hu hn
    have ht : r.text = none := hiff.mpr (Or.inr hbl)
    have hs : r.skipped = false := by
      by_contra h
      exact hnand ⟨by simpa using h, hbl⟩
    simp [fetch_html, ha, hb, hbl, hu, hn, ht, hs]
  · intro ha hb hbl hto
    have ht : r.text = none := hiff.mpr (Or.inr hbl)
    have hs : r.skipped = false := by
      by_contra h
      exact hnand ⟨by simpa using h, hbl⟩
    rcases hto with hu | hn
    · cases browser <;> simp [fetch_html, ha, hb, hu, ht, hs]
    · simp [fetch_html, ha, hb, hn, ht, hs]
  · intro ha hb hbl hs
    have ht : r.text ≠ none := by
      intro h
      rcases hiff.mp h with h' | h'
      · rw [hs] at h'; cases h'
      · rw [hbl] at h'; cases h'
    cases browser <;> simp [fetch_html, ha, hb, hs, Option.isNone_iff_eq_none, ht]

/-- Closed instance of `fetch_html_orchestration`: a transport-blocked plain
fetch falls back to the configured browser exactly once. -/
theorem fetch_html_orchestration_witness :
    fetch_html "https://www.hasznaltauto.hu/szemelyauto/opel-astra-1"
        (RobotsPolicy.init "https://www.hasznaltauto.hu" "agent")
        (HttpClient.fetch none "https://www.hasznaltauto.hu/szemelyauto/opel-astra-1" false .exn)
        (some (some "<html>body</html>")) true false
      = (some "<html>body</html>",
         [.httpFetch "https://www.hasznaltauto.hu/szemelyauto/opel-astra-1",
          .browserFetch "https://www.hasznaltauto.hu/szemelyauto/opel-astra-1"]) :=
  (fetch_html_orchestration _ _ _ _ _ _
      (HttpClient.fetch_wellFormed none _ false .exn)).2.2.2.2.1
    (some "<html>body</html>") rfl rfl rfl rfl rfl

/-- C2: a received response is classified blocked iff its status is 403 or
429 or its lowercased body contains one of the fixed challenge phrases
(which include "access denied" and "too many requests"); every blocked
result carries no body, and in particular a status-200 response whose body
says "Too Many Requests" is blocked with no body. -/
theorem http_fetch_blocked_classification :
    (∀ (robots : Option (String → Bool)) (url : String) (ig : Bool)
        (s : Nat) (t ct : String),
      (HttpClient.fetch robots url ig (.resp s t ct)).skipped = false →
        ((HttpClient.fetch robots url ig (.resp s t ct)).blocked = true ↔
          (s = 403 ∨ s = 429 ∨ is_blocked t = true))) ∧
    ("access denied" ∈ BLOCKED_PHRASES ∧ "too many requests" ∈ BLOCKED_PHRASES) ∧
    (∀ (robots : Option (String → Bool)) (url : String) (ig : Bool)
        (net : NetOutcome),
      (HttpClient.fetch robots url ig net).blocked = true →
        (HttpClient.fetch robots url ig net).text = none) ∧
    ((HttpClient.fetch none "https://www.hasznaltauto.hu/szemelyauto/x-1" false
        (.resp 200 "<html>Error: Too Many Requests - retry later</html>"
          "text/html")).blocked = true ∧
      (HttpClient.fetch none "https://www.hasznaltauto.hu/szemelyauto/x-1" false
        (.resp 200 "<html>Error: Too Many Requests - retry later</html>"
          "text/html")).text = none) := by
  refine ⟨?_, ⟨by decide, by decide⟩, ?_, by decide, by decide⟩
  · intro robots url ig s t ct hsk
    unfold HttpClient.fetch at hsk ⊢
    split at hsk
    · cases hsk
    · rename_i hnd
      rw [if_neg hnd]
      dsimp only
      split
      · rename_i hcond
        simp only [Bool.or_eq_true, beq_iff_eq] at hcond
        constructor
        · intro _
          rcases hcond with (h | h) | h
          · exact Or.inl h
          · exact Or.inr (Or.inl h)
          · exact Or.inr (Or.inr h)
        · intro _; rfl
      · rename_i hcond
        simp only [Bool.or_eq_true, beq_iff_eq, not_or] at hcond
        simp only [Bool.false_eq_true, false_iff, not_or]
        exact ⟨hcond.1.1, hcond.1.2, hcond.2⟩
  · intro robots url ig net hbl
    unfold HttpClient.fetch at hbl ⊢
    split at hbl
    · cases hbl
    · rename_i hnd
      rw [if_neg hnd]
      cases net with
      | exn => rfl
      | resp s t ct =>
        dsimp only at hbl ⊢
        split at hbl
        · rename_i hc; rw [if_pos hc]
        · cases hbl

/-- Closed instance of `http_fetch_blocked_classification`: a plain 200
response with a clean body is not blocked. -/
theorem http_fetch_blocked_classification_witness :
    (HttpClient.fetch none "https://www.hasznaltauto.hu/szemelyauto/x-1" false
        (.resp 200 "<html>ok</html>" "text/html")).skipped = false ∧
      ((HttpClient.fetch none "https://www.hasznaltauto.hu/szemelyauto/x-1" false
          (.resp 200 "<html>ok</html>" "text/html")).blocked = true ↔
        (200 = 403 ∨ 200 = 429 ∨ is_blocked "<html>ok</html>" = true)) :=
  ⟨rfl, http_fetch_blocked_classification.1 none
    "https://www.hasznaltauto.hu/szemelyauto/x-1" false 200 "<html>ok</html>"
    "text/html" rfl⟩

/-- C3: before `load()` the gate allows every URL; after a load whose
robots.txt fetch obtained no body it still allows every URL (fails open)
while recording itself loaded; after a successful load it delegates to the
parsed robots matcher for the configured user agent. -/
theorem robots_allowed_phases (base agent url body : String)
    (parse : String → String → String → Bool) :
    ((RobotsPolicy.init base agent).allowed url = true) ∧
    (((RobotsPolicy.init base agent).load parse none).allowed url = true ∧
      ((RobotsPolicy.init base agent).load parse none).loaded = true) ∧
    (((RobotsPolicy.init base agent).load parse (some body)).allowed url
        = parse body agent url) :=
  ⟨rfl, ⟨rfl, rfl⟩, rfl⟩

theorem addPageUrls_length (cats : List String) (m : Nat) :
    ∀ (ls urls : List String), m ≠ 0 → urls.length < m →
      ((addPageUrls cats m urls ls).1.length ≤ m ∧
        ((addPageUrls cats m urls ls).2 = false →
          (addPageUrls cats m urls ls).1.length < m)) := by
  intro ls
  induction ls with
  | nil =>
    intro urls hm hlt
    exact ⟨le_of_lt hlt, fun _ => hlt⟩
  | cons u rest ih =>
    intro urls hm hlt
    unfold addPageUrls
    dsimp only
    by_cases hl : is_listing_url u cats = true
    · rw [if_pos hl]
      have hlen : (urls ++ [u]).length = urls.length + 1 := by
        rw [List.length_append, List.length_singleton]
      by_cases hc : m ≠ 0 ∧ m ≤ (urls ++ [u]).length
      · rw [if_pos hc]
        constructor
        · dsimp only; omega
        · intro hfl; simp at hfl
      · rw [if_neg hc]
        push_neg at hc
        exact ih (urls ++ [u]) hm (by have := hc hm; omega)
    · rw [if_neg hl]
      exact ih urls hm hlt

theorem addPageUrls_mem (cats : List String) (m : Nat) :
    ∀ (ls urls : List String) (u : String),
      u ∈ (addPageUrls cats m urls ls).1 →
      u ∈ urls ∨ is_listing_url u cats = true := by
  intro ls
  induction ls with
  | nil =>
    intro urls u hu
    exact Or.inl hu
  | cons v rest ih =>
    intro urls u hu
    unfold addPageUrls at hu
    dsimp only at hu
    by_cases hl : is_listing_url v cats = true
    · rw [if_pos hl] at hu
      by_cases hc : m ≠ 0 ∧ m ≤ (urls ++ [v]).length
      · rw [if_pos hc] at hu
        dsimp only at hu
        rcases List.mem_append.mp hu with hu | hu
        · exact Or.inl hu
        · exact Or.inr ((List.mem_singleton.mp hu) ▸ hl)
      · rw [if_neg hc] at hu
        rcases ih (urls ++ [v]) u hu with h | h
        · rcases List.mem_append.mp h with h | h
          · exact Or.inl h
          · exact Or.inr ((List.mem_singleton.mp h) ▸ hl)
        · exact Or.inr h
    · rw [if_neg hl] at hu
      exact ih urls u hu

theorem split_snd_length (d : SitemapDoc) :
    d.split.2.length = SitemapFetch.pushLen (.doc d) := by
  cases d <;> rfl

theorem lookupKV_mem {α : Type} (u : String) (a : α) :
    ∀ (net : List (String × α)), lookupKV u net = some a → (u, a) ∈ net := by
  intro net
  induction net with
  | nil => intro h; cases h
  | cons p rest ih =>
    obtain ⟨k, v⟩ := p
    intro h
    unfold lookupKV at h
    by_cases hk : k = u
    · rw [if_pos hk] at h
      injection h with hv
      rw [← hk, ← hv]
      exact List.mem_cons_self _ _
    · rw [if_neg hk] at h
      exact List.mem_cons_of_mem _ (ih h)

theorem le_maxPushLen (net : List (String × SitemapFetch)) :
    ∀ p ∈ net, SitemapFetch.pushLen p.2 ≤ maxPushLen net := by
  induction net with
  | nil => intro p hp; exact absurd hp (List.not_mem_nil p)
  | cons q rest ih =>
    intro p hp
    unfold maxPushLen
    rw [List.map_cons, List.foldr_cons]
    rcases List.mem_cons.mp hp with h | h
    · rw [h]
      exact Nat.le_max_left _ _
    · exact le_trans (ih p h) (Nat.le_max_right _ _)

theorem sitemapLoop_completes (net : List (String × SitemapFetch))
    (topUrl : String) (cats : List String) (m maxPush : Nat)
    (hnet : ∀ p ∈ net, SitemapFetch.pushLen p.2 ≤ maxPush) :
    ∀ (fuel : Nat) (pending visited urls : List String) (last : SitemapFetch),
      SitemapFetch.pushLen last ≤ maxPush →
      pending.length + sumUnvisited (fun p => p.2.pushLen) net visited +
        (if topUrl ∈ visited then 0 else 1 + maxPush) ≤ fuel →
      sitemapLoop net topUrl cats m fuel pending visited urls last
        ≠ .fuelOut := by
  intro fuel
  induction fuel with
  | zero =>
    intro pending visited urls last hlast h
    cases pending with
    | nil => simp [sitemapLoop]
    | cons q rest =>
      exfalso
      simp only [List.length_cons] at h
      omega
  | succ fuel ih =>
    intro pending visited urls last hlast h
    cases pending with
    | nil => simp [sitemapLoop]
    | cons u rest =>
      simp only [List.length_cons] at h
      unfold sitemapLoop
      dsimp only
      by_cases hv : u ∈ visited
      · rw [if_pos hv]
        exact ih rest visited urls last hlast (by omega)
      · rw [if_neg hv]
        have hle := sumUnvisited_append_le (fun p => p.2.pushLen) net visited u
        by_cases htop : u = topUrl
        · rw [if_pos htop]
          rw [if_neg (show ¬(u ≠ topUrl ∧ last = SitemapFetch.miss) from
            fun hc => hc.1 htop)]
          have hTvis : topUrl ∉ visited := fun hmem => hv (htop ▸ hmem)
          rw [if_neg hTvis] at h
          have hTvis' : topUrl ∈ visited ++ [u] :=
            htop ▸ List.mem_append_right _ (List.mem_singleton.mpr rfl)
          cases last with
          | miss => simp
          | notXml =>
            refine ih rest (visited ++ [u]) urls .notXml (Nat.zero_le _) ?_
            rw [if_pos hTvis']
            omega
          | badXml =>
            refine ih rest (visited ++ [u]) urls .badXml (Nat.zero_le _) ?_
            rw [if_pos hTvis']
            omega
          | doc d =>
            dsimp only
            cases hA : addPageUrls cats m urls d.split.1 with
            | mk urls2 flag =>
              cases flag with
              | true => simp
              | false =>
                dsimp only
                refine ih _ _ _ (.doc d) hlast ?_
                have hsplit := split_snd_length d
                rw [if_pos hTvis', List.length_append]
                omega
        · rw [if_neg htop]
          have hiff : topUrl ∈ visited ++ [u] ↔ topUrl ∈ visited := by
            constructor
            · intro hmem
              rcases List.mem_append.mp hmem with hmem | hmem
              · exact hmem
              · exact absurd (List.mem_singleton.mp hmem).symm htop
            · exact fun hmem => List.mem_append_left _ hmem
          have hTcong :
              (if topUrl ∈ visited ++ [u] then (0 : Nat) else 1 + maxPush)
                = if topUrl ∈ visited then 0 else 1 + maxPush :=
            if_congr hiff rfl rfl
          cases hl : (lookupKV u net).getD .miss with
          | miss =>
            rw [if_pos ⟨htop, rfl⟩]
            refine ih rest (visited ++ [u]) urls .miss (Nat.zero_le _) ?_
            rw [hTcong]
            omega
          | notXml =>
            rw [if_neg (by simp : ¬(u ≠ topUrl ∧
              SitemapFetch.notXml = SitemapFetch.miss))]
            refine ih rest (visited ++ [u]) urls .notXml (Nat.zero_le _) ?_
            rw [hTcong]
            omega
          | badXml =>
            rw [if_neg (by simp : ¬(u ≠ topUrl ∧
              SitemapFetch.badXml = SitemapFetch.miss))]
            refine ih rest (visited ++ [u]) urls .badXml (Nat.zero_le _) ?_
            rw [hTcong]
            omega
          | doc d =>
            rw [if_neg (by simp : ¬(u ≠ topUrl ∧
              SitemapFetch.doc d = SitemapFetch.miss))]
            have hlook : lookupKV u net = some (.doc d) := by
              cases hx : lookupKV u net with
              | none => rw [hx] at hl; simp at hl
              | some x => rw [hx] at hl; simpa using hl
            have hvis := sumUnvisited_visit
              (fun p => p.2.pushLen) net visited u (.doc d) hlook hv
            dsimp only at hvis
            have hpush : SitemapFetch.pushLen (.doc d) ≤ maxPush :=
              hnet (u, .doc d) (lookupKV_mem u (.doc d) net hlook)
            have hsplit := split_snd_length d
            dsimp only
            cases hA : addPageUrls cats m urls d.split.1 with
            | mk urls2 flag =>
              cases flag with
              | true => simp
              | false =>
                dsimp only
                refine ih _ _ _ (.doc d) hpush ?_
                rw [hTcong, List.length_append]
                omega

theorem sitemapLoop_le (net : List (String × SitemapFetch)) (topUrl : String)
    (cats : List String) (m : Nat) (hm : m ≠ 0) :
    ∀ (fuel : Nat) (pending visited urls : List String)
      (last : SitemapFetch) (urls' : List String),
      urls.length < m →
      sitemapLoop net topUrl cats m fuel pending visited urls last
        = .done urls' →
      urls'.length ≤ m := by
  intro fuel
  induction fuel with
  | zero =>
    intro pending visited urls last urls' hlt hdone
    unfold sitemapLoop at hdone
    split at hdone
    · injection hdone with he
      exact he ▸ le_of_lt hlt
    · cases hdone
  | succ fuel ih =>
    intro pending visited urls last urls' hlt hdone
    cases pending with
    | nil =>
      unfold sitemapLoop at hdone
      dsimp only at hdone
      injection hdone with he
      exact he ▸ le_of_lt hlt
    | cons u rest =>
      unfold sitemapLoop at hdone
      dsimp only at hdone
      by_cases hv : u ∈ visited
      · rw [if_pos hv] at hdone
        exact ih rest visited urls last urls' hlt hdone
      · rw [if_neg hv] at hdone
        by_cases htop : u = topUrl
        · rw [if_pos htop] at hdone
          rw [if_neg (show ¬(u ≠ topUrl ∧ last = SitemapFetch.miss) from
            fun hc => hc.1 htop)] at hdone
          cases last with
          | miss => cases hdone
          | notXml => exact ih rest (visited ++ [u]) urls .notXml urls' hlt hdone
          | badXml => exact ih rest (visited ++ [u]) urls .badXml urls' hlt hdone
          | doc d =>
            have hAL := addPageUrls_length cats m d.split.1 urls hm hlt
            dsimp only at hdone
            cases hA : addPageUrls cats m urls d.split.1 with
            | mk urls2 flag =>
              rw [hA] at hdone hAL
              dsimp only at hAL
              cases flag with
              | true =>
                dsimp only at hdone
                injection hdone with he
                exact he ▸ hAL.1
              | false =>
                dsimp only at hdone
                exact ih _ _ _ _ _ (hAL.2 rfl) hdone
        · rw [if_neg htop] at hdone
          cases hl : (lookupKV u net).getD .miss with
          | miss =>
            rw [hl] at hdone
            rw [if_pos ⟨htop, rfl⟩] at hdone
            exact ih rest (visited ++ [u]) urls .miss urls' hlt hdone
          | notXml =>
            rw [hl] at hdone
            rw [if_neg (by simp : ¬(u ≠ topUrl ∧
              SitemapFetch.notXml = SitemapFetch.miss))] at hdone
            dsimp only at hdone
            exact ih rest (visited ++ [u]) urls .notXml urls' hlt hdone
          | badXml =>
            rw [hl] at hdone
            rw [if_neg (by simp : ¬(u ≠ topUrl ∧
              SitemapFetch.badXml = SitemapFetch.miss))] at hdone
            dsimp only at hdone
            exact ih rest (visited ++ [u]) urls .badXml urls' hlt hdone
          | doc d =>
            rw [hl] at hdone
            rw [if_neg (by simp : ¬(u ≠ topUrl ∧
              SitemapFetch.doc d = SitemapFetch.miss))] at hdone
            dsimp only at hdone
            have hAL := addPageUrls_length cats m d.split.1 urls hm hlt
            cases hA : addPageUrls cats m urls d.split.1 with
            | mk urls2 flag =>
              rw [hA] at hdone hAL
              dsimp only at hAL
              cases flag with
              | true =>
                dsimp only at hdone
                injection hdone with he
                exact he ▸ hAL.1
              | false =>
                dsimp only at hdone
                exact ih _ _ _ _ _ (hAL.2 rfl) hdone

theorem sitemapLoop_listing (net : List (String × SitemapFetch))
    (topUrl : String) (cats : List String) (m : Nat) :
    ∀ (fuel : Nat) (pending visited urls : List String)
      (last : SitemapFetch) (urls' : List String),
      (∀ w ∈ urls, is_listing_url w cats = true) →
      sitemapLoop net topUrl cats m fuel pending visited urls last
        = .done urls' →
      ∀ w ∈ urls', is_listing_url w cats = true := by
  intro fuel
  induction fuel with
  | zero =>
    intro pending visited urls last urls' hall hdone
    unfold sitemapLoop at hdone
    split at hdone
    · injection hdone with he
      exact he ▸ hall
    · cases hdone
  | succ fuel ih =>
    intro pending visited urls last urls' hall hdone
    cases pending with
    | nil =>
      unfold sitemapLoop at hdone
      dsimp only at hdone
      injection hdone with he
      exact he ▸ hall
    | cons u rest =>
      unfold sitemapLoop at hdone
      dsimp only at hdone
      by_cases hv : u ∈ visited
      · rw [if_pos hv] at hdone
        exact ih rest visited urls last urls' hall hdone
      · rw [if_neg hv] at hdone
        by_cases htop : u = topUrl
        · rw [if_pos htop] at hdone
          rw [if_neg (show ¬(u ≠ topUrl ∧ last = SitemapFetch.miss) from
            fun hc => hc.1 htop)] at hdone
          cases last with
          | miss => cases hdone
          | notXml => exact ih rest (visited ++ [u]) urls .notXml urls' hall hdone
          | badXml => exact ih rest (visited ++ [u]) urls .badXml urls' hall hdone
          | doc d =>
            have hall' : ∀ w ∈ (addPageUrls cats m urls d.split.1).1,
                is_listing_url w cats = true := by
              intro w hw
              rcases addPageUrls_mem cats m d.split.1 urls w hw with h | h
              · exact hall w h
              · exact h
            dsimp only at hdone
            cases hA : addPageUrls cats m urls d.split.1 with
            | mk urls2 flag =>
              rw [hA] at hdone hall'
              dsimp only at hall'
              cases flag with
              | true =>
                dsimp only at hdone
                injection hdone with he
                exact he ▸ hall'
              | false =>
                dsimp only at hdone
                exact ih _ _ _ _ _ hall' hdone
        · rw [if_neg htop] at hdone
          cases hl : (lookupKV u net).getD .miss with
          | miss =>
            rw [hl] at hdone
            rw [if_pos ⟨htop, rfl⟩] at hdone
            exact ih rest (visited ++ [u]) urls .miss urls' hall hdone
          | notXml =>
            rw [hl] at hdone
            rw [if_neg (by simp : ¬(u ≠ topUrl ∧
              SitemapFetch.notXml = SitemapFetch.miss))] at hdone
            dsimp only at hdone
            exact ih rest (visited ++ [u]) urls .notXml urls' hall hdone
          | badXml =>
            rw [hl] at hdone
            rw [if_neg (by simp : ¬(u ≠ topUrl ∧
              SitemapFetch.badXml = SitemapFetch.miss))] at hdone
            dsimp only at hdone
            exact ih rest (visited ++ [u]) urls .badXml urls' hall hdone
          | doc d =>
            rw [hl] at hdone
            rw [if_neg (by simp : ¬(u ≠ topUrl ∧
              SitemapFetch.doc d = SitemapFetch.miss))] at hdone
            dsimp only at hdone
            have hall' : ∀ w ∈ (addPageUrls cats m urls d.split.1).1,
                is_listing_url w cats = true := by
              intro w hw
              rcases addPageUrls_mem cats m d.split.1 urls w hw with h | h
              · exact hall w h
              · exact h
            cases hA : addPageUrls cats m urls d.split.1 with
            | mk urls2 flag =>
              rw [hA] at hdone hall'
              dsimp only at hall'
              cases flag with
              | true =>
                dsimp only at hdone
                injection hdone with he
                exact he ▸ hall'
              | false =>
                dsimp only at hdone
                exact ih _ _ _ _ _ hall' hdone

theorem addPageUrls_take (cats : List String) (m : Nat) :
    ∀ (ls urls : List String), m ≠ 0 → urls.length < m →
      (addPageUrls cats m urls ls).1
        = urls ++ (ls.filter (fun u => is_listing_url u cats)).take
            (m - urls.length) := by
  intro ls
  induction ls with
  | nil => intro urls hm hlt; simp [addPageUrls]
  | cons u rest ih =>
    intro urls hm hlt
    unfold addPageUrls
    dsimp only
    by_cases hl : is_listing_url u cats = true
    · rw [if_pos hl,
        show List.filter (fun w => is_listing_url w cats) (u :: rest)
            = u :: List.filter (fun w => is_listing_url w cats) rest
          from List.filter_cons_of_pos hl]
      have hlen : (urls ++ [u]).length = urls.length + 1 := by
        rw [List.length_append, List.length_singleton]
      by_cases hc : m ≠ 0 ∧ m ≤ (urls ++ [u]).length
      · rw [if_pos hc]
        dsimp only
        obtain ⟨-, hc2⟩ := hc
        have hm1 : m - urls.length = 1 := by omega
        rw [hm1, List.take_succ_cons, List.take_zero]
      · rw [if_neg hc]
        push_neg at hc
        have hlt' : (urls ++ [u]).length < m := by
          have := hc hm
          omega
        rw [ih (urls ++ [u]) hm hlt']
        have h1 : m - urls.length = (m - (urls ++ [u]).length) + 1 := by omega
        rw [h1, List.take_succ_cons, List.append_assoc]
        rfl
    · rw [if_neg hl,
        show List.filter (fun w => is_listing_url w cats) (u :: rest)
            = List.filter (fun w => is_listing_url w cats) rest
          from List.filter_cons_of_neg (by simpa using hl)]
      exact ih urls hm hlt

/-- C6 (amended): the sitemap walk terminates on every finite sitemap-index
graph, self-referential or duplicated indices included — within provably
sufficient fuel it reaches either a normal return or the AttributeError
raised when the top index URL is re-dequeued while the held fetch result has
no body; whenever it returns a URL list, that list has at most `max_urls`
entries when the cap is nonzero, every URL's path contains a configured
category segment, each leaf document contributes the order-preserving prefix
of its category-matching URLs up to the remaining budget, and on the
specification's two-level example (an index over two leaf documents with five
matching and three non-matching URLs) with `max_urls = 3` it returns exactly
the first three matching URLs in document order. -/
theorem fetch_sitemap_urls_spec (net : List (String × SitemapFetch))
    (base_url : String) (cats : List String) (m : Nat) :
    (sitemapRun net base_url cats m ≠ .fuelOut) ∧
    (∀ urls, sitemapRun net base_url cats m = .done urls → m ≠ 0 →
      urls.length ≤ m) ∧
    (∀ urls, sitemapRun net base_url cats m = .done urls →
      ∀ u ∈ urls, is_listing_url u cats = true) ∧
    (∀ (ls urls : List String), m ≠ 0 → urls.length < m →
      (addPageUrls cats m urls ls).1
        = urls ++ (ls.filter (fun u => is_listing_url u cats)).take
            (m - urls.length)) ∧
    sitemapRun twoLevelSitemapNet "https://www.hasznaltauto.hu"
        ["szemelyauto"] 3
      = .done ["https://www.hasznaltauto.hu/szemelyauto/auto-101",
               "https://www.hasznaltauto.hu/szemelyauto/auto-102",
               "https://www.hasznaltauto.hu/szemelyauto/auto-103"] := by
  refine ⟨?_, ?_, ?_, addPageUrls_take cats m, by decide⟩
  · unfold sitemapRun
    dsimp only
    cases (lookupKV (sitemapIndexUrl base_url) net).getD .miss with
    | miss => simp
    | notXml => simp
    | badXml => simp
    | doc d =>
      dsimp only
      refine sitemapLoop_completes net _ cats m
        (Nat.max (SitemapFetch.pushLen (.doc d)) (maxPushLen net)) ?_
        _ _ [] [] (.doc d) (Nat.le_max_left _ _) ?_
      · intro p hp
        exact le_trans (le_maxPushLen net p hp) (Nat.le_max_right _ _)
      · rw [if_neg (List.not_mem_nil _)]
  · intro urls hdone hm
    unfold sitemapRun at hdone
    dsimp only at hdone
    revert hdone
    cases (lookupKV (sitemapIndexUrl base_url) net).getD .miss with
    | miss => intro hdone; injection hdone with he; subst he; simp
    | notXml => intro hdone; injection hdone with he; subst he; simp
    | badXml => intro hdone; injection hdone with he; subst he; simp
    | doc d =>
      intro hdone
      exact sitemapLoop_le net _ cats m hm _ _ [] [] (.doc d) urls
        (Nat.pos_of_ne_zero hm) hdone
  · intro urls hdone u hu
    unfold sitemapRun at hdone
    dsimp only at hdone
    revert hdone
    cases (lookupKV (sitemapIndexUrl base_url) net).getD .miss with
    | miss =>
      intro hdone; injection hdone with he; subst he
      exact absurd hu (List.not_mem_nil u)
    | notXml =>
      intro hdone; injection hdone with he; subst he
      exact absurd hu (List.not_mem_nil u)
    | badXml =>
      intro hdone; injection hdone with he; subst he
      exact absurd hu (List.not_mem_nil u)
    | doc d =>
      intro hdone
      refine sitemapLoop_listing net _ cats m _ _ [] [] (.doc d) urls
        ?_ hdone u hu
      intro x hx
      exact absurd hx (List.not_mem_nil x)

/-- Closed instance of `fetch_sitemap_urls_spec`: the two-level example with
cap 3 returns normally with no more than 3 URLs. -/
theorem fetch_sitemap_urls_spec_witness :
    (3 : Nat) ≠ 0 ∧
    (["https://www.hasznaltauto.hu/szemelyauto/auto-101",
      "https://www.hasznaltauto.hu/szemelyauto/auto-102",
      "https://www.hasznaltauto.hu/szemelyauto/auto-103"] : List String).length
      ≤ 3 :=
  ⟨by decide,
    (fetch_sitemap_urls_spec twoLevelSitemapNet "https://www.hasznaltauto.hu"
        ["szemelyauto"] 3).2.1
      ["https://www.hasznaltauto.hu/szemelyauto/auto-101",
       "https://www.hasznaltauto.hu/szemelyauto/auto-102",
       "https://www.hasznaltauto.hu/szemelyauto/auto-103"]
      (by decide) (by decide)⟩

/-- C6 (counterexample): on this self-referential index whose other child is
a dead document, discovery crashes instead of returning a URL list: the dead
child's failed fetch is still held in `result` when the top index URL is
dequeued, the code skips refetching it (sitemap.py line 106), and
`_looks_like_sitemap(None)` raises AttributeError. -/
theorem sitemapRun_crashes_on_self_reference :
    sitemapRun selfRefCrashNet "https://www.hasznaltauto.hu"
        ["szemelyauto"] 10 = .crash ∧
    fetch_sitemap_urls selfRefCrashNet "https://www.hasznaltauto.hu"
        ["szemelyauto"] 10 = none := by
  refine ⟨by decide, by decide⟩

theorem sitemapRun_stale_reuse_duplicates :
    sitemapRun staleReuseNet "https://www.hasznaltauto.hu" ["szemelyauto"] 0
      = .done ["https://www.hasznaltauto.hu/szemelyauto/auto-1",
               "https://www.hasznaltauto.hu/szemelyauto/auto-1"] := by decide

theorem sitemapLoop_nil_pending (net : List (String × SitemapFetch))
    (topUrl : String) (cats : List String) (m : Nat) (fuel : Nat)
    (visited urls : List String) (last : SitemapFetch) :
    sitemapLoop net topUrl cats m fuel [] visited urls last = .done urls := by
  cases fuel <;> rfl

/-- C10: when the top-level sitemap document parses as a leaf urlset, sitemap
discovery returns normally with the empty list — only nested index references
seed the pending queue, so the top document's own page URLs are never
filtered or retained, however well they match the categories and the cap. -/
theorem sitemap_top_urlset_empty (net : List (String × SitemapFetch))
    (base_url : String) (cats : List String) (m : Nat) (locs : List String)
    (h : lookupKV (sitemapIndexUrl base_url) net = some (.doc (.urlset locs))) :
    sitemapRun net base_url cats m = .done [] ∧
    fetch_sitemap_urls net base_url cats m = some [] := by
  have hrun : sitemapRun net base_url cats m = .done [] := by
    unfold sitemapRun
    dsimp only
    rw [h]
    dsimp only [Option.getD, SitemapDoc.split]
    rw [sitemapLoop_nil_pending]
  refine ⟨hrun, ?_⟩
  unfold fetch_sitemap_urls
  rw [hrun]

/-- Closed instance of `sitemap_top_urlset_empty`: a top-level urlset holding
a perfectly matching listing URL still yields no sitemap URLs. -/
theorem sitemap_top_urlset_empty_witness :
    sitemapRun
        [("https://www.hasznaltauto.hu/sitemap/sitemap_index.xml",
          .doc (.urlset ["https://www.hasznaltauto.hu/szemelyauto/auto-5"]))]
        "https://www.hasznaltauto.hu" ["szemelyauto"] 10 = .done [] :=
  (sitemap_top_urlset_empty
    [("https://www.hasznaltauto.hu/sitemap/sitemap_index.xml",
      .doc (.urlset ["https://www.hasznaltauto.hu/szemelyauto/auto-5"]))]
    "https://www.hasznaltauto.hu" ["szemelyauto"] 10
    ["https://www.hasznaltauto.hu/szemelyauto/auto-5"] (by decide)).1

theorem priceScanLine_no_match (st : PriceScanState) (line : String)
    (h : findPriceMatch line.data = none) : priceScanLine st line = st := by
  unfold priceScanLine
  rw [h]
  simp

theorem foldl_priceScanLine_id (ls : List String) :
    ∀ (st : PriceScanState), (∀ l ∈ ls, findPriceMatch l.data = none) →
      ls.foldl priceScanLine st = st := by
  induction ls with
  | nil => intro st _; rfl
  | cons l rest ih =>
    intro st hall
    rw [List.foldl_cons,
      priceScanLine_no_match st l (hall l (List.mem_cons_self l rest))]
    exact ih st (fun x hx => hall x (List.mem_cons_of_mem l hx))

/-- C7: when no earlier visible-text line carries a price pattern, a line
"1 990 000 Ft" sets the primary price 1990000 with currency HUF; an
additional accent-marked discount line "Akció … 1 750 000 Ft" fills the
separate discounted-price field with 1750000 and leaves the primary price
untouched. -/
theorem detail_price_extraction (pre mid : List String)
    (h1 : ∀ l ∈ pre, findPriceMatch l.data = none)
    (h2 : ∀ l ∈ mid, findPriceMatch l.data = none) :
    detailPriceScan (pre ++ ("1 990 000 Ft" :: mid)) none
      = { price := some 1990000, price_discount := none,
          currency := some "HUF" } ∧
    detailPriceScan
        (pre ++ ("1 990 000 Ft" :: (mid ++ ["Akció! Most csak 1 750 000 Ft"])))
        none
      = { price := some 1990000, price_discount := some 1750000,
          currency := some "HUF" } := by
  have hA : priceScanLine
      { price := none, price_discount := none, currency := none }
      "1 990 000 Ft"
      = { price := some 1990000, price_discount := none,
          currency := some "HUF" } := by decide
  have hB : priceScanLine
      { price := some 1990000, price_discount := none, currency := some "HUF" }
      "Akció! Most csak 1 750 000 Ft"
      = { price := some 1990000, price_discount := some 1750000,
          currency := some "HUF" } := by decide
  constructor
  · unfold detailPriceScan
    rw [List.foldl_append, foldl_priceScanLine_id pre _ h1, List.foldl_cons,
      hA, foldl_priceScanLine_id mid _ h2]
  · unfold detailPriceScan
    rw [List.foldl_append, foldl_priceScanLine_id pre _ h1, List.foldl_cons,
      hA, List.foldl_append, foldl_priceScanLine_id mid _ h2,
      List.foldl_cons, hB]
    rfl

/-- C7 (counterexample): the scan takes the first line matching the
number-plus-currency pattern, so a page whose visible text contains the line
"1 990 000 Ft" but an earlier priced line as well yields that earlier amount,
not 1990000. -/
theorem detail_price_first_match_wins :
    detailPriceScan ["Előleg: 500 000 Ft", "1 990 000 Ft"] none
      = { price := some 500000, price_discount := none,
          currency := some "HUF" } := by decide

/-- Closed instance of `detail_price_extraction`: surrounding prose lines
carry no price pattern, and the two amounts land in their fields. -/
theorem detail_price_extraction_witness :
    (∀ l ∈ ["Eladó autó"], findPriceMatch l.data = none) ∧
    detailPriceScan (["Eladó autó"] ++ ("1 990 000 Ft" ::
        (["Kitűnő állapot"] ++ ["Akció! Most csak 1 750 000 Ft"]))) none
      = { price := some 1990000, price_discount := some 1750000,
          currency := some "HUF" } :=
  ⟨by decide,
    (detail_price_extraction ["Eladó autó"] ["Kitűnő állapot"]
      (by decide) (by decide)).2⟩

theorem resolve_ad_id_eq (kv : List (String × String)) (url : String) :
    resolve_ad_id kv url =
      match embedded_ad_code kv with
      | some v =>
        match parse_int v with
        | some n => some n
        | none => parse_ad_id url
      | none => parse_ad_id url := by
  unfold resolve_ad_id embedded_ad_code
  cases h1 : lookupKV "Hirdeteskod" kv with
  | some v =>
    dsimp only
    cases hp : parse_int v <;> simp [hp]
  | none =>
    dsimp only
    cases h2 : lookupKV "Hirdetes kod" kv with
    | some v =>
      dsimp only
      cases hp : parse_int v <;> simp [hp]
    | none =>
      dsimp only
      cases h3 : lookupKV "HirdetesKod" kv with
      | some v =>
        dsimp only
        cases hp : parse_int v <;> simp [hp]
      | none => simp

/-- C9 (amended): the resulting ad id is the parsed embedded ad-code value
whenever the first present ad-code label parses to a number — the URL value
is ignored — and the URL's trailing number is used exactly when no ad-code
label is present or the first present label's value contains no digits. -/
theorem resolve_ad_id_precedence (kv : List (String × String)) (url : String) :
    (∀ v n, embedded_ad_code kv = some v → parse_int v = some n →
        resolve_ad_id kv url = some n) ∧
    (embedded_ad_code kv = none → resolve_ad_id kv url = parse_ad_id url) ∧
    (∀ v, embedded_ad_code kv = some v → parse_int v = none →
        resolve_ad_id kv url = parse_ad_id url) := by
  refine ⟨?_, ?_, ?_⟩
  · intro v n hv hp
    rw [resolve_ad_id_eq, hv]
    dsimp only
    rw [hp]
  · intro hv
    rw [resolve_ad_id_eq, hv]
  · intro v hv hp
    rw [resolve_ad_id_eq, hv]
    dsimp only
    rw [hp]

/-- Closed instance of `resolve_ad_id_precedence`: a parseable embedded
ad code beats the URL's trailing id. -/
theorem resolve_ad_id_precedence_witness :
    embedded_ad_code [("Hirdeteskod", "999888")] = some "999888" ∧
    parse_int "999888" = some 999888 ∧
    resolve_ad_id [("Hirdeteskod", "999888")]
        "https://www.hasznaltauto.hu/szemelyauto/opel-astra-123"
      = some 999888 :=
  ⟨rfl, by decide,
    (resolve_ad_id_precedence [("Hirdeteskod", "999888")]
        "https://www.hasznaltauto.hu/szemelyauto/opel-astra-123").1
      "999888" 999888 rfl (by decide)⟩

/-- C9 (counterexample): a page exposing the embedded ad-code label with a
digit-free value alongside a URL with a trailing numeric id resolves to the
URL-derived id, so the URL number is not used "only when no embedded ad-code
label is found". -/
theorem resolve_ad_id_label_fallback :
    embedded_ad_code [("Hirdeteskod", "n/a")] = some "n/a" ∧
    parse_int "n/a" = none ∧
    resolve_ad_id [("Hirdeteskod", "n/a")]
        "https://www.hasznaltauto.hu/szemelyauto/opel-astra-123"
      = some 123 := by
  refine ⟨rfl, by decide, by decide⟩

/-- C8 (amended): with resume disabled every discovered listing is fetched;
with resume enabled a listing is skipped exactly when its URL carries a
nonzero trailing numeric id that is already stored (Python truthiness treats
a zero or missing URL-derived id as absent); and the conflict-update clause
of the upsert overwrites every non-key column with the new row's values, so
an existing row is fully replaced, not merged. -/
theorem resume_and_replace_spec (V : Type) (store : List Nat) (url : String)
    (old excluded : ListingRow V) :
    (driver_fetches false store url = true) ∧
    (driver_fetches true store url = false ↔
      ∃ n, parse_ad_id url = some n ∧ n ≠ 0 ∧ n ∈ store) ∧
    (old.ad_id = excluded.ad_id → conflictUpdate old excluded = excluded) := by
  refine ⟨?_, ?_, ?_⟩
  · unfold driver_fetches
    cases parse_ad_id url <;> simp
  · unfold driver_fetches
    cases h : parse_ad_id url with
    | none => simp
    | some k =>
      simp only [Bool.not_eq_false', Bool.and_eq_true, bne_iff_ne, ne_eq,
        List.elem_iff, true_and]
      constructor
      · rintro ⟨hk, hc⟩
        exact ⟨k, rfl, hk, hc⟩
      · rintro ⟨n, hn, hk, hc⟩
        injection hn with hn
        subst hn
        exact ⟨hk, hc⟩
  · intro h
    cases old
    cases excluded
    simp only [ListingRow.mk.injEq] at h ⊢
    unfold conflictUpdate
    simp_all

/-- Closed instance of `resume_and_replace_spec`: a conflicting upsert keeps
none of the old row's column values. -/
theorem resume_and_replace_spec_witness :
    (constRow 7 (some "old")).ad_id = (constRow 7 (some "fresh")).ad_id ∧
    conflictUpdate (constRow 7 (some "old")) (constRow 7 (some "fresh"))
      = constRow 7 (some "fresh") :=
  ⟨rfl, (resume_and_replace_spec (Option String) [] ""
      (constRow 7 (some "old")) (constRow 7 (some "fresh"))).2.2 rfl⟩

/-- C8 (counterexample): a listing whose URL carries no trailing "-digits"
segment is re-fetched under resume even though its (page-embedded) ad id, 5,
is already stored — the resume guard can only consult the URL-derived id,
which does not exist here. -/
theorem driver_refetches_stored_ad :
    resolve_ad_id [("Hirdeteskod", "5")]
        "https://www.hasznaltauto.hu/szemelyauto/opel" = some 5 ∧
    (5 : Nat) ∈ [5] ∧
    driver_fetches true [5] "https://www.hasznaltauto.hu/szemelyauto/opel"
      = true := by
  refine ⟨by decide, by decide, by decide⟩

end Hasznaltauto
